import Mathlib

/-!
Shallow embedding of the early-boot bump allocator in
arceos/modules/bump_allocator/src/lib.rs.

The allocator manages one fixed region [start, end): bytes are bump-allocated
forward from start (cursor b_pos), pages backward from end (cursor p_pos), and
byte_count counts outstanding byte allocations (bulk reclamation when it
returns to zero). usize values are modelled as Nat; the one subtraction the
source performs unguarded (byte_count -= 1 in dealloc) is additionally modelled
under explicit wrapping (mod 2 ^ 64) and checked semantics.
-/

/-- The single error kind of the allocator interface. -/
inductive AllocError where
  | NoMemory
deriving Repr, DecidableEq

/-- Result type of fallible allocator operations. -/
abbrev AllocResult (α : Type) := Except AllocError α

/-- Region state of the early allocator (fields of the Rust struct
EarlyAllocator; all fields are usize, modelled as Nat). -/
structure EarlyAllocator where
  start : Nat
  «end» : Nat
  b_pos : Nat
  p_pos : Nat
  byte_count : Nat
deriving Repr, DecidableEq

namespace EarlyAllocator

/-- EarlyAllocator::new: the const constructor, all fields zero. -/
def new : EarlyAllocator :=
  { start := 0, «end» := 0, b_pos := 0, p_pos := 0, byte_count := 0 }

/-- BaseAllocator::init(start, size): sets start, b_pos = start and
p_pos = end = start + size. byte_count is not touched. -/
def init (s : EarlyAllocator) (start size : Nat) : EarlyAllocator :=
  { s with start := start, b_pos := start, p_pos := start + size, «end» := start + size }

/-- BaseAllocator::add_memory: always fails with NoMemory, state untouched. -/
def add_memory (s : EarlyAllocator) (start size : Nat) : AllocResult Unit × EarlyAllocator :=
  (Except.error AllocError.NoMemory, s)

/-- The align-up computation inlined in ByteAllocator::alloc: round addr up to
the next multiple of align (let misalign = addr % align; if misalign != 0 then
addr += align - misalign). -/
def align_up (addr align : Nat) : Nat :=
  if addr % align ≠ 0 then addr + (align - addr % align) else addr

/-- ByteAllocator::alloc(layout) with layout = (size, align): round b_pos up to
align; fail NoMemory if the rounded address plus size exceeds p_pos; otherwise
advance b_pos past the allocation, increment byte_count and return the rounded
address. The pair mirrors the Rust (return value, mutated self). -/
def alloc (s : EarlyAllocator) (size align : Nat) : AllocResult Nat × EarlyAllocator :=
  if align_up s.b_pos align + size > s.p_pos then
    (Except.error AllocError.NoMemory, s)
  else
    (Except.ok (align_up s.b_pos align),
      { s with b_pos := align_up s.b_pos align + size, byte_count := s.byte_count + 1 })

/-- ByteAllocator::dealloc(pos, layout): byte_count -= 1, and when the count
reaches zero, b_pos resets to start. The decrement is modelled under the
caller contract byte_count >= 1 (no underflow); the underflowing call is
modelled separately by dealloc_wrapping and dealloc_checked. pos, size and
align are taken and ignored exactly as in the source. -/
def dealloc (s : EarlyAllocator) (pos size align : Nat) : EarlyAllocator :=
  if s.byte_count - 1 = 0 then
    { s with byte_count := s.byte_count - 1, b_pos := s.start }
  else
    { s with byte_count := s.byte_count - 1 }

/-- ByteAllocator::dealloc under wrapping usize semantics: the unguarded
byte_count -= 1 wraps modulo 2 ^ 64 (release-profile Rust). Agrees with
dealloc whenever 1 <= byte_count < 2 ^ 64. -/
def dealloc_wrapping (s : EarlyAllocator) (pos size align : Nat) : EarlyAllocator :=
  if (s.byte_count + (2 ^ 64 - 1)) % 2 ^ 64 = 0 then
    { s with byte_count := (s.byte_count + (2 ^ 64 - 1)) % 2 ^ 64, b_pos := s.start }
  else
    { s with byte_count := (s.byte_count + (2 ^ 64 - 1)) % 2 ^ 64 }

/-- ByteAllocator::dealloc under checked usize semantics: the decrement panics
on underflow (byte_count == 0), modelled as none. -/
def dealloc_checked (s : EarlyAllocator) (pos size align : Nat) : Option EarlyAllocator :=
  if s.byte_count = 0 then none else some (dealloc s pos size align)

/-- ByteAllocator::total_bytes: end - start. -/
def total_bytes (s : EarlyAllocator) : Nat :=
  s.«end» - s.start

/-- ByteAllocator::used_bytes: b_pos - start. -/
def used_bytes (s : EarlyAllocator) : Nat :=
  s.b_pos - s.start

/-- ByteAllocator::available_bytes: p_pos - b_pos when p_pos > b_pos, else 0. -/
def available_bytes (s : EarlyAllocator) : Nat :=
  if s.p_pos > s.b_pos then s.p_pos - s.b_pos else 0

/-- PageAllocator::alloc_pages(num_pages, align_pow2) with PAGE_SIZE the const
generic SIZE: size = num_pages * PAGE_SIZE; candidate = p_pos checked_sub size
(NoMemory on underflow); mask := align_pow2 - 1 and addr &= !mask, where the
complement of the 64-bit usize mask is (2 ^ 64 - 1) ^^^ mask; fail NoMemory if
the masked candidate is below b_pos; otherwise move p_pos down to it and
return it. -/
def alloc_pages (PAGE_SIZE : Nat) (s : EarlyAllocator) (num_pages align_pow2 : Nat) :
    AllocResult Nat × EarlyAllocator :=
  if s.p_pos < num_pages * PAGE_SIZE then
    (Except.error AllocError.NoMemory, s)
  else if (s.p_pos - num_pages * PAGE_SIZE) &&& ((2 ^ 64 - 1) ^^^ (align_pow2 - 1)) <
      s.b_pos then
    (Except.error AllocError.NoMemory, s)
  else
    (Except.ok ((s.p_pos - num_pages * PAGE_SIZE) &&& ((2 ^ 64 - 1) ^^^ (align_pow2 - 1))),
      { s with
        p_pos := (s.p_pos - num_pages * PAGE_SIZE) &&& ((2 ^ 64 - 1) ^^^ (align_pow2 - 1)) })

/-- PageAllocator::dealloc_pages: the body is todo!(), which panics
unconditionally; a panicking call never returns a successor state, so it is
modelled as the constant none. -/
def dealloc_pages (s : EarlyAllocator) (pos num_pages : Nat) : Option EarlyAllocator :=
  none

/-- PageAllocator::total_pages: (end - start) / PAGE_SIZE. -/
def total_pages (PAGE_SIZE : Nat) (s : EarlyAllocator) : Nat :=
  (s.«end» - s.start) / PAGE_SIZE

/-- PageAllocator::used_pages: (end - p_pos) / PAGE_SIZE. -/
def used_pages (PAGE_SIZE : Nat) (s : EarlyAllocator) : Nat :=
  (s.«end» - s.p_pos) / PAGE_SIZE

/-- PageAllocator::available_pages: (p_pos - b_pos) / PAGE_SIZE when
p_pos > b_pos, else 0. -/
def available_pages (PAGE_SIZE : Nat) (s : EarlyAllocator) : Nat :=
  if s.p_pos > s.b_pos then (s.p_pos - s.b_pos) / PAGE_SIZE else 0

/-- The region invariants of the spec: start <= b_pos <= p_pos <= end, and
byte_count == 0 implies b_pos == start (bulk reclamation). -/
def Inv (s : EarlyAllocator) : Prop :=
  s.start ≤ s.b_pos ∧ s.b_pos ≤ s.p_pos ∧ s.p_pos ≤ s.«end» ∧
    (s.byte_count = 0 → s.b_pos = s.start)

instance (s : EarlyAllocator) : Decidable (Inv s) := by
  unfold Inv
  infer_instance

/-- States reachable from an initialized allocator under the caller contract
(dealloc only with byte_count >= 1). -/
inductive Reachable (PAGE_SIZE : Nat) : EarlyAllocator → Prop where
  | init : ∀ start size, Reachable PAGE_SIZE (EarlyAllocator.new.init start size)
  | alloc : ∀ s size align, Reachable PAGE_SIZE s →
      Reachable PAGE_SIZE (s.alloc size align).2
  | dealloc : ∀ s pos size align, Reachable PAGE_SIZE s → 1 ≤ s.byte_count →
      Reachable PAGE_SIZE (s.dealloc pos size align)
  | alloc_pages : ∀ s n a, Reachable PAGE_SIZE s →
      Reachable PAGE_SIZE (alloc_pages PAGE_SIZE s n a).2
  | add_memory : ∀ s st sz, Reachable PAGE_SIZE s →
      Reachable PAGE_SIZE (s.add_memory st sz).2

end EarlyAllocator

/-! Helper lemmas shared by the claim theorems. -/

namespace EarlyAllocator

theorem le_align_up (addr align : Nat) : addr ≤ align_up addr align := by
  unfold align_up
  split
  · exact Nat.le_add_right _ _
  · exact Nat.le_refl _

theorem align_up_mod (addr k : Nat) : align_up addr (2 ^ k) % 2 ^ k = 0 := by
  have hpos : 0 < 2 ^ k := Nat.two_pow_pos k
  have hdm := Nat.div_add_mod addr (2 ^ k)
  have hlt : addr % 2 ^ k < 2 ^ k := Nat.mod_lt _ hpos
  unfold align_up
  by_cases h : addr % 2 ^ k = 0
  · simp [h]
  · simp only [h, ne_eq, not_false_iff, if_true]
    have hkey : addr + (2 ^ k - addr % 2 ^ k) = 2 ^ k * (addr / 2 ^ k) + 2 ^ k := by omega
    rw [hkey, Nat.add_mod, Nat.mul_mod_right, Nat.mod_self]
    simp

theorem align_up_of_mod_eq_zero {addr align : Nat} (h : addr % align = 0) :
    align_up addr align = addr := by
  unfold align_up
  simp [h]

/-- The usize complement of the low-bit mask of a power of two is bitwise
disjoint from that mask. -/
theorem not_mask_and_mask {k : Nat} (hk : k ≤ 64) :
    ((2 ^ 64 - 1) ^^^ (2 ^ k - 1)) &&& (2 ^ k - 1) = 0 := by
  apply Nat.eq_of_testBit_eq
  intro i
  rw [Nat.testBit_and, Nat.testBit_xor, Nat.testBit_two_pow_sub_one,
    Nat.testBit_two_pow_sub_one, Nat.zero_testBit]
  by_cases hik : i < k
  · have h64 : i < 64 := Nat.lt_of_lt_of_le hik hk
    simp [hik, h64]
  · simp [hik]

/-- Masking with the usize complement of align - 1 yields a multiple of align
when align = 2 ^ k is a usize power of two. -/
theorem and_not_mask_mod {n k align : Nat} (hk : k ≤ 64) (h : align = 2 ^ k) :
    (n &&& ((2 ^ 64 - 1) ^^^ (align - 1))) % align = 0 := by
  subst h
  rw [← Nat.and_pow_two_sub_one_eq_mod, Nat.and_assoc, not_mask_and_mask hk,
    Nat.and_zero]

/-- Destructor for a successful alloc. -/
theorem alloc_eq_ok {s : EarlyAllocator} {size align a : Nat} {s' : EarlyAllocator}
    (h : alloc s size align = (Except.ok a, s')) :
    a = align_up s.b_pos align ∧ align_up s.b_pos align + size ≤ s.p_pos ∧
      s' = { s with b_pos := align_up s.b_pos align + size,
                    byte_count := s.byte_count + 1 } := by
  unfold alloc at h
  split at h
  · simp at h
  · next hc =>
    rw [Prod.mk.injEq] at h
    obtain ⟨h1, h2⟩ := h
    rw [Except.ok.injEq] at h1
    exact ⟨h1.symm, by omega, h2.symm⟩

/-- Destructor for a successful alloc_pages. -/
theorem alloc_pages_eq_ok {PS : Nat} {s : EarlyAllocator} {n align p : Nat}
    {s' : EarlyAllocator} (h : alloc_pages PS s n align = (Except.ok p, s')) :
    n * PS ≤ s.p_pos ∧
      p = (s.p_pos - n * PS) &&& ((2 ^ 64 - 1) ^^^ (align - 1)) ∧
      s.b_pos ≤ p ∧ s' = { s with p_pos := p } := by
  unfold alloc_pages at h
  split at h
  · simp at h
  · next h1 =>
    split at h
    · simp at h
    · next h2 =>
      rw [Prod.mk.injEq] at h
      obtain ⟨h3, h4⟩ := h
      rw [Except.ok.injEq] at h3
      subst h3
      exact ⟨by omega, rfl, by omega, h4.symm⟩

theorem inv_init (s : EarlyAllocator) (start size : Nat) : Inv (s.init start size) := by
  unfold Inv init
  simp

theorem inv_alloc (s : EarlyAllocator) (size align : Nat) (h : Inv s) :
    Inv (s.alloc size align).2 := by
  unfold Inv alloc at *
  split
  · exact h
  · next hc =>
    have hle := le_align_up s.b_pos align
    simp at hc ⊢
    omega

theorem inv_dealloc (s : EarlyAllocator) (pos size align : Nat) (h : Inv s)
    (hc : 1 ≤ s.byte_count) : Inv (s.dealloc pos size align) := by
  unfold Inv dealloc at *
  obtain ⟨h1, h2, h3, h4⟩ := h
  split
  · exact ⟨Nat.le_refl _, Nat.le_trans h1 h2, h3, fun _ => rfl⟩
  · next hne => exact ⟨h1, h2, h3, fun hz => absurd hz hne⟩

theorem inv_alloc_pages (PS : Nat) (s : EarlyAllocator) (n a : Nat) (h : Inv s) :
    Inv (alloc_pages PS s n a).2 := by
  unfold Inv alloc_pages at *
  split
  · exact h
  · split
    · exact h
    · next h1 h2 =>
      obtain ⟨g1, g2, g3, g4⟩ := h
      have hld : (s.p_pos - n * PS) &&& ((2 ^ 64 - 1) ^^^ (a - 1)) ≤
          s.p_pos - n * PS := Nat.and_le_left
      refine ⟨g1, Nat.le_of_not_lt h2, ?_, g4⟩
      show (s.p_pos - n * PS) &&& ((2 ^ 64 - 1) ^^^ (a - 1)) ≤ s.«end»
      omega

theorem inv_add_memory (s : EarlyAllocator) (st sz : Nat) (h : Inv s) :
    Inv (s.add_memory st sz).2 := h

theorem reachable_inv {PS : Nat} {s : EarlyAllocator} (h : Reachable PS s) : Inv s := by
  induction h with
  | init start size => exact inv_init _ start size
  | alloc s size align _ ih => exact inv_alloc s size align ih
  | dealloc s pos size align _ hc ih => exact inv_dealloc s pos size align ih hc
  | alloc_pages s n a _ ih => exact inv_alloc_pages PS s n a ih
  | add_memory s st sz _ ih => exact inv_add_memory s st sz ih

/-! Claim theorems. -/

/-- Claim C1: for every Operating state satisfying the region invariants and
every request (size, align) with align a power of two, a successful alloc
returns an address a with a % align = 0, a at or above the prior b_pos, and
a + size within p_pos; afterwards b_pos = a + size and byte_count grew by
exactly one, so a later successful byte allocation starts at or above
a + size (no overlap of non-empty ranges). -/
theorem alloc_success_spec (s : EarlyAllocator) (size align k a : Nat)
    (s' : EarlyAllocator) (hinv : Inv s) (hpow : align = 2 ^ k)
    (h : alloc s size align = (Except.ok a, s')) :
    a % align = 0 ∧ s.b_pos ≤ a ∧ a + size ≤ s.p_pos ∧
      s'.b_pos = a + size ∧ s'.byte_count = s.byte_count + 1 ∧
      ∀ size2 align2 a2 s2, alloc s' size2 align2 = (Except.ok a2, s2) →
        a + size ≤ a2 := by
  subst hpow
  obtain ⟨ha, hle, hs⟩ := alloc_eq_ok h
  subst ha
  subst hs
  refine ⟨align_up_mod _ _, le_align_up _ _, hle, rfl, rfl, ?_⟩
  intro size2 align2 a2 s2 h2
  obtain ⟨ha2, _, _⟩ := alloc_eq_ok h2
  subst ha2
  exact le_align_up _ _

/-- Claim C1 witness: scenario A on the region 0x1000..0x3000, alloc(16, 8)
returns 0x1000 and advances b_pos to 0x1010. -/
theorem alloc_success_spec_witness :
    4096 % 8 = 0 ∧ 4096 ≤ 4096 ∧ 4096 + 16 ≤ 12288 ∧
      (4112 : Nat) = 4096 + 16 ∧ (1 : Nat) = 0 + 1 ∧
      ∀ size2 align2 a2 s2,
        EarlyAllocator.alloc ⟨4096, 12288, 4112, 12288, 1⟩ size2 align2 =
            (Except.ok a2, s2) →
          4096 + 16 ≤ a2 :=
  alloc_success_spec ⟨4096, 12288, 4096, 12288, 0⟩ 16 8 3 4096
    ⟨4096, 12288, 4112, 12288, 1⟩ (by decide) (by decide) rfl

/-- Claim C2: for every state and every request (n, align_pow2) with
align_pow2 a power of two, a successful alloc_pages returns p with
p % align_pow2 = 0, p at or above b_pos, p + n * PAGE_SIZE within the prior
p_pos, and the new p_pos equal to p; the candidate is p_pos - n * PAGE_SIZE
(NoMemory on underflow), aligned down by clearing the low bits, with NoMemory
when the aligned candidate falls below b_pos. -/
theorem alloc_pages_success_spec (PS : Nat) (s : EarlyAllocator) (n align k : Nat)
    (hk : k ≤ 64) (hpow : align = 2 ^ k) :
    (∀ p s', alloc_pages PS s n align = (Except.ok p, s') →
        p % align = 0 ∧ s.b_pos ≤ p ∧ p + n * PS ≤ s.p_pos ∧ s'.p_pos = p) ∧
      (s.p_pos < n * PS →
        alloc_pages PS s n align = (Except.error AllocError.NoMemory, s)) ∧
      (n * PS ≤ s.p_pos →
        (s.p_pos - n * PS) &&& ((2 ^ 64 - 1) ^^^ (align - 1)) < s.b_pos →
        alloc_pages PS s n align = (Except.error AllocError.NoMemory, s)) := by
  refine ⟨?_, ?_, ?_⟩
  · intro p s' h
    obtain ⟨hle, hp, hbp, hs⟩ := alloc_pages_eq_ok h
    subst hp
    subst hs
    have h1 : (s.p_pos - n * PS) &&& ((2 ^ 64 - 1) ^^^ (align - 1)) ≤
        s.p_pos - n * PS := Nat.and_le_left
    exact ⟨and_not_mask_mod hk hpow, hbp, by omega, rfl⟩
  · intro hlt
    unfold alloc_pages
    rw [if_pos hlt]
  · intro hge hlt2
    unfold alloc_pages
    rw [if_neg (by omega), if_pos hlt2]

/-- Claim C2 witness: scenario B, alloc_pages(1, 0x1000) from p_pos = 0x3000
returns the already aligned candidate 0x2000 and moves p_pos there. -/
theorem alloc_pages_success_spec_witness :
    (8192 : Nat) % 4096 = 0 ∧ (4112 : Nat) ≤ 8192 ∧ 8192 + 1 * 4096 ≤ 12288 ∧
      (⟨4096, 12288, 4112, 8192, 1⟩ : EarlyAllocator).p_pos = 8192 :=
  (alloc_pages_success_spec 4096 ⟨4096, 12288, 4112, 12288, 1⟩ 1 4096 12
      (by decide) (by decide)).1 8192 ⟨4096, 12288, 4112, 8192, 1⟩ rfl

/-- Claim C3: a NoMemory failure of alloc or alloc_pages leaves the entire
state, in particular b_pos, p_pos and byte_count, exactly as before the
call. -/
theorem failure_atomic (PS : Nat) (s : EarlyAllocator) (size align n ap : Nat) :
    ((alloc s size align).1 = Except.error AllocError.NoMemory →
      (alloc s size align).2 = s) ∧
      ((alloc_pages PS s n ap).1 = Except.error AllocError.NoMemory →
        (alloc_pages PS s n ap).2 = s) := by
  constructor
  · unfold alloc
    split
    · intro _
      rfl
    · intro h
      exact absurd h (by simp)
  · unfold alloc_pages
    split
    · intro _
      rfl
    · split
      · intro _
        rfl
      · intro h
        exact absurd h (by simp)

/-- Claim C3 witness: scenario C, a byte allocation that would cross p_pos and
a page allocation that underflows both fail and leave the state unchanged. -/
theorem failure_atomic_witness :
    (EarlyAllocator.alloc ⟨4096, 12288, 4112, 8192, 2⟩ 4096 8).2 =
        ⟨4096, 12288, 4112, 8192, 2⟩ ∧
      (EarlyAllocator.alloc_pages 4096 ⟨4096, 12288, 4112, 8192, 2⟩ 99 4096).2 =
        ⟨4096, 12288, 4112, 8192, 2⟩ :=
  ⟨(failure_atomic 4096 ⟨4096, 12288, 4112, 8192, 2⟩ 4096 8 99 4096).1 rfl,
    (failure_atomic 4096 ⟨4096, 12288, 4112, 8192, 2⟩ 4096 8 99 4096).2 rfl⟩

/-- Claim C4: for every state with byte_count at least 1, dealloc decrements
byte_count by exactly one, resets b_pos to start exactly when the decremented
count is zero, leaves b_pos unchanged when it is still positive, and never
touches p_pos. -/
theorem dealloc_spec (s : EarlyAllocator) (pos size align : Nat)
    (h : 1 ≤ s.byte_count) :
    (s.dealloc pos size align).byte_count = s.byte_count - 1 ∧
      (s.byte_count - 1 = 0 → (s.dealloc pos size align).b_pos = s.start) ∧
      (s.byte_count - 1 ≠ 0 → (s.dealloc pos size align).b_pos = s.b_pos) ∧
      (s.dealloc pos size align).p_pos = s.p_pos := by
  unfold dealloc
  split
  · next hz => exact ⟨rfl, fun _ => rfl, fun hn => absurd hz hn, rfl⟩
  · next hz => exact ⟨rfl, fun hzz => absurd hzz hz, fun _ => rfl, rfl⟩

/-- Claim C4 witness: scenario D, after two allocations (byte_count = 2) one
dealloc drops the count to 1 without resetting b_pos. -/
theorem dealloc_spec_witness :
    (EarlyAllocator.dealloc ⟨4096, 12288, 4112, 12288, 2⟩ 4104 8 8).byte_count =
        2 - 1 ∧
      ((2 : Nat) - 1 = 0 →
        (EarlyAllocator.dealloc ⟨4096, 12288, 4112, 12288, 2⟩ 4104 8 8).b_pos = 4096) ∧
      ((2 : Nat) - 1 ≠ 0 →
        (EarlyAllocator.dealloc ⟨4096, 12288, 4112, 12288, 2⟩ 4104 8 8).b_pos = 4112) ∧
      (EarlyAllocator.dealloc ⟨4096, 12288, 4112, 12288, 2⟩ 4104 8 8).p_pos = 12288 :=
  dealloc_spec ⟨4096, 12288, 4112, 12288, 2⟩ 4104 8 8 (by decide)

/-- Claim C5: the region invariants (start at most b_pos at most p_pos at most
end, and byte_count = 0 implies b_pos = start) hold after init and are
preserved by alloc, by dealloc under the caller contract byte_count at least
1, by alloc_pages and by add_memory, from any state satisfying them; hence
every reachable state satisfies them. The queries do not mutate state in this
embedding, so there is nothing to preserve for them. -/
theorem inv_preserved (PS : Nat) :
    (∀ (s : EarlyAllocator) (start size : Nat), Inv (s.init start size)) ∧
      (∀ (s : EarlyAllocator) (size align : Nat), Inv s →
        Inv (s.alloc size align).2) ∧
      (∀ (s : EarlyAllocator) (pos size align : Nat), Inv s →
        1 ≤ s.byte_count → Inv (s.dealloc pos size align)) ∧
      (∀ (s : EarlyAllocator) (n a : Nat), Inv s →
        Inv (alloc_pages PS s n a).2) ∧
      (∀ (s : EarlyAllocator) (st sz : Nat), Inv s →
        Inv (s.add_memory st sz).2) ∧
      (∀ s : EarlyAllocator, Reachable PS s → Inv s) :=
  ⟨inv_init, inv_alloc, inv_dealloc, fun s n a h => inv_alloc_pages PS s n a h,
    inv_add_memory, fun _ h => reachable_inv h⟩

/-- Claim C5 witness: the invariants hold on concrete states after a dealloc
under the caller contract and after an alloc. -/
theorem inv_preserved_witness :
    Inv (EarlyAllocator.dealloc ⟨4096, 12288, 4112, 12288, 1⟩ 4096 8 8) ∧
      Inv ((⟨4096, 12288, 4096, 12288, 0⟩ : EarlyAllocator).alloc 16 8).2 :=
  ⟨(inv_preserved 4096).2.2.1 ⟨4096, 12288, 4112, 12288, 1⟩ 4096 8 8
      (by decide) (by decide),
    (inv_preserved 4096).2.1 ⟨4096, 12288, 4096, 12288, 0⟩ 16 8 (by decide)⟩

/-- Claim C6: init(start, size) on a freshly constructed allocator establishes
b_pos = start, p_pos = end = start + size and byte_count = 0. -/
theorem init_spec (start size : Nat) :
    (EarlyAllocator.new.init start size).b_pos = start ∧
      (EarlyAllocator.new.init start size).p_pos = start + size ∧
      (EarlyAllocator.new.init start size).«end» = start + size ∧
      (EarlyAllocator.new.init start size).byte_count = 0 :=
  ⟨rfl, rfl, rfl, rfl⟩

/-- Claim C7: in every reachable state, used_bytes plus available_bytes is at
most total_bytes, with equality whenever p_pos still equals end (no page
allocation has occurred). -/
theorem bytes_accounting (PS : Nat) (s : EarlyAllocator) (h : Reachable PS s) :
    used_bytes s + available_bytes s ≤ total_bytes s ∧
      (s.p_pos = s.«end» →
        used_bytes s + available_bytes s = total_bytes s) := by
  obtain ⟨h1, h2, h3, _⟩ := reachable_inv h
  unfold used_bytes available_bytes total_bytes
  split <;> exact ⟨by omega, fun h4 => by omega⟩

/-- Claim C7 witness: the accounting identity on a freshly initialized
region. -/
theorem bytes_accounting_witness :
    used_bytes (EarlyAllocator.new.init 4096 8192) +
        available_bytes (EarlyAllocator.new.init 4096 8192) ≤
        total_bytes (EarlyAllocator.new.init 4096 8192) ∧
      ((EarlyAllocator.new.init 4096 8192).p_pos =
          (EarlyAllocator.new.init 4096 8192).«end» →
        used_bytes (EarlyAllocator.new.init 4096 8192) +
            available_bytes (EarlyAllocator.new.init 4096 8192) =
          total_bytes (EarlyAllocator.new.init 4096 8192)) :=
  bytes_accounting 4096 _ (Reachable.init 4096 8192)

/-- Claim C8: dealloc_pages never returns normally: its body panics
unconditionally (a fatal precondition violation), so it is never a silent
no-op and in particular never returns with the state unchanged and never
mutates p_pos. -/
theorem dealloc_pages_spec (s : EarlyAllocator) (pos num_pages : Nat) :
    dealloc_pages s pos num_pages = none :=
  rfl

/-- Claim C9: calling dealloc with byte_count = 0 underflows the unsigned
counter: under checked usize arithmetic the call panics (no normal return),
and under wrapping semantics byte_count becomes 2 ^ 64 - 1 while b_pos is
left unchanged; there is no guard returning an error. -/
theorem dealloc_underflow (s : EarlyAllocator) (pos size align : Nat)
    (h : s.byte_count = 0) :
    dealloc_checked s pos size align = none ∧
      (dealloc_wrapping s pos size align).byte_count = 2 ^ 64 - 1 ∧
      (dealloc_wrapping s pos size align).b_pos = s.b_pos := by
  have hc : (s.byte_count + (2 ^ 64 - 1)) % 2 ^ 64 = 2 ^ 64 - 1 := by
    rw [h, Nat.zero_add]
    exact Nat.mod_eq_of_lt (Nat.sub_lt (Nat.two_pow_pos 64) Nat.one_pos)
  have hne : (s.byte_count + (2 ^ 64 - 1)) % 2 ^ 64 ≠ 0 := by
    rw [hc]
    decide
  refine ⟨?_, ?_, ?_⟩
  · unfold dealloc_checked
    rw [if_pos h]
  · unfold dealloc_wrapping
    rw [if_neg hne]
    exact hc
  · unfold dealloc_wrapping
    rw [if_neg hne]

/-- Claim C9 witness: the underflowing dealloc on a concrete freshly
initialized state. -/
theorem dealloc_underflow_witness :
    EarlyAllocator.dealloc_checked ⟨4096, 12288, 4096, 12288, 0⟩ 4096 8 8 = none ∧
      (EarlyAllocator.dealloc_wrapping ⟨4096, 12288, 4096, 12288, 0⟩ 4096 8 8).byte_count =
        2 ^ 64 - 1 ∧
      (EarlyAllocator.dealloc_wrapping ⟨4096, 12288, 4096, 12288, 0⟩ 4096 8 8).b_pos =
        4096 :=
  dealloc_underflow ⟨4096, 12288, 4096, 12288, 0⟩ 4096 8 8 rfl

/-- Claim C10: a zero-size alloc with power-of-two align succeeds whenever the
align-rounded b_pos is within p_pos; it still increments byte_count by one
and moves b_pos to the rounded address, and an immediately following
zero-size alloc with the same align returns the same address. -/
theorem alloc_zero_spec (s : EarlyAllocator) (align k : Nat)
    (hpow : align = 2 ^ k) (h : align_up s.b_pos align ≤ s.p_pos) :
    s.alloc 0 align =
        (Except.ok (align_up s.b_pos align),
          { s with b_pos := align_up s.b_pos align, byte_count := s.byte_count + 1 }) ∧
      alloc (s.alloc 0 align).2 0 align =
        (Except.ok (align_up s.b_pos align),
          { s with b_pos := align_up s.b_pos align, byte_count := s.byte_count + 1 + 1 }) := by
  subst hpow
  have hmod : align_up s.b_pos (2 ^ k) % 2 ^ k = 0 := align_up_mod _ _
  have hfix : align_up (align_up s.b_pos (2 ^ k)) (2 ^ k) =
      align_up s.b_pos (2 ^ k) := align_up_of_mod_eq_zero hmod
  have h1 : s.alloc 0 (2 ^ k) =
      (Except.ok (align_up s.b_pos (2 ^ k)),
        { s with b_pos := align_up s.b_pos (2 ^ k), byte_count := s.byte_count + 1 }) := by
    unfold alloc
    rw [if_neg (by omega)]
    simp
  refine ⟨h1, ?_⟩
  rw [h1]
  unfold alloc
  dsimp only
  rw [hfix, if_neg (by omega)]
  simp

/-- Claim C10 witness: two consecutive zero-size allocations with align 8 from
an unaligned b_pos both return the rounded address 0x1008 while byte_count
keeps growing. -/
theorem alloc_zero_spec_witness :
    EarlyAllocator.alloc ⟨4096, 12288, 4100, 12288, 1⟩ 0 8 =
        (Except.ok 4104, ⟨4096, 12288, 4104, 12288, 2⟩) ∧
      EarlyAllocator.alloc ⟨4096, 12288, 4104, 12288, 2⟩ 0 8 =
        (Except.ok 4104, ⟨4096, 12288, 4104, 12288, 3⟩) :=
  alloc_zero_spec ⟨4096, 12288, 4100, 12288, 1⟩ 8 3 rfl (by decide)

end EarlyAllocator
